import Mathlib

/-!
Shallow embedding of the NextBracket fetch-union-filter pipeline
(src/nextbracket/tournament_fetcher.py, src/nextbracket/api_client.py,
src/nextbracket/calendar_generator.py) together with spec-level
characterisations used to compare the code against the natural-language
specification.

Modelling conventions:
* Python `dict` tournament records become a `Tournament` structure whose
  optional fields are `Option`; a missing key and a JSON `null` are both
  modelled as `none`.
* Python identifiers may be strings or ints (`PyId`); Python truthiness of
  an id (`if tournament_id:`) is `PyId.truthy` (`None`, `0` and `""` are
  falsy).
* Unix timestamps and attendee counts are `Int`; `datetime` values are
  represented by their epoch seconds (UTC), `timedelta(days = d)` by
  `d * 86400` seconds and `timedelta(hours = 4)` by `4 * 3600` seconds
  (a fixed-offset timezone model of the naive-datetime arithmetic).
* A gateway call that raises is an `Except.error`; the `try/except` in
  `StartGGClient.get_tournaments` is the function `get_tournaments_result`.
-/

/-- A Python tournament identifier: the start.gg API may deliver a string or
an integer id. -/
inductive PyId where
  | str (s : String)
  | int (n : Int)
deriving DecidableEq, Repr

/-- Python truthiness of an id value: `0` and `""` are falsy. -/
def PyId.truthy : PyId → Bool
  | .str s => !(s == "")
  | .int n => !(n == 0)

/-- Python truthiness of the optional `id` field of a record
(`if tournament_id:` in `fetch_tournaments`): `None` is falsy. -/
def pyTruthy : Option PyId → Bool
  | none => false
  | some v => v.truthy

/-- The `videogame` sub-object of a sub-event (`events[i].videogame`). -/
structure SubEventGame where
  id : Option Int := none
  name : Option String := none
deriving DecidableEq, Repr

/-- One entry of a tournament's `events` list. -/
structure SubEvent where
  id : Option Int := none
  name : Option String := none
  videogame : Option SubEventGame := none
deriving DecidableEq, Repr

/-- A tournament record as returned by the gateway queries: the fields
selected by the GraphQL queries in `api_client.py`. -/
structure Tournament where
  id : Option PyId := none
  name : Option String := none
  slug : Option String := none
  startAt : Option Int := none
  endAt : Option Int := none
  timezone : Option String := none
  venueAddress : Option String := none
  city : Option String := none
  state : Option String := none
  countryCode : Option String := none
  isRegistrationOpen : Option Bool := none
  numAttendees : Option Int := none
  events : List SubEvent := []
deriving DecidableEq, Repr

/-- The `filters` sub-object of a configuration file, with the keys the
pipeline reads (`min_attendees` in `_apply_filters`) and the day-based
date-window keys named by the spec. -/
structure FiltersCfg where
  min_attendees : Option Int := none
  date_range_days : Option Int := none
  include_past_days : Option Int := none
deriving DecidableEq, Repr

/-- The slice of a configuration value consumed by the date-window logic of
`TournamentFetcher.fetch_tournaments` (lines 119-132). -/
structure FetcherConfig where
  date_range_years : Option Int := none
  filters : FiltersCfg := {}
deriving DecidableEq, Repr

/-- Lines 119-132 of `tournament_fetcher.py`: the date window is derived
solely from the top-level `date_range_years` key; `today_start` is the Unix
timestamp of today's midnight (`datetime.now().replace(hour=0, ...)`), and
`days_range = years * 365` days are added and subtracted. -/
def calculate_date_range (config : FetcherConfig) (today_start : Int) :
    Option Int × Option Int :=
  match config.date_range_years with
  | some y =>
      if 0 < y then
        (some (today_start - y * 365 * 86400), some (today_start + y * 365 * 86400))
      else
        (none, none)
  | none => (none, none)

/-- Modelled from the spec: the Criteria Builder date window as the
specification describes it, supporting both configured shapes — the
symmetric year-window (`date_range_years`) and the asymmetric
day-ahead/day-behind window (`filters.date_range_days` ahead plus
`filters.include_past_days` behind), with `after = midnight − behind` and
`before = midnight + ahead` as Unix timestamps, and absent bounds when no
window is configured. -/
def claimed_date_range (config : FetcherConfig) (today_start : Int) :
    Option Int × Option Int :=
  match config.date_range_years with
  | some y =>
      if 0 < y then
        (some (today_start - y * 365 * 86400), some (today_start + y * 365 * 86400))
      else
        (none, none)
  | none =>
      match config.filters.date_range_days with
      | some d =>
          (some (today_start - config.filters.include_past_days.getD 0 * 86400),
           some (today_start + d * 86400))
      | none => (none, none)

/-- The filter object assembled by `StartGGClient.get_tournaments`
(lines 76-105 of `api_client.py`) for the standard `TournamentPageFilter`
query. `location` holds the `(distanceFrom, distance)` strings. -/
structure TournamentFilterObj where
  videogameIds : Option (List Int) := none
  location : Option (String × String) := none
  afterDate : Option Int := none
  beforeDate : Option Int := none
  ownerId : Option String := none
deriving DecidableEq, Repr

/-- The gateway request `get_tournaments` actually issues: either the
owner-only `TournamentsByOwner` query (whose filter carries nothing but the
owner id) or the standard `TournamentPageFilter` query. -/
inductive GatewayRequest where
  | byOwner (perPage : Int) (ownerId : String)
  | standard (perPage page : Int) (filter : TournamentFilterObj)
deriving DecidableEq, Repr

/-- The parameters of `StartGGClient.get_tournaments`, with the defaults of
the Python signature. Latitude, longitude and radius are modelled as
integers (their numeric values never matter to the claims; Python
truthiness of `0`/`0.0` is preserved). -/
structure GetTournamentsParams where
  videogame_ids : Option (List Int) := none
  latitude : Option Int := none
  longitude : Option Int := none
  radius : Option Int := none
  radius_unit : String := "km"
  after_date : Option Int := none
  before_date : Option Int := none
  owner_ids : Option (List String) := none
  per_page : Int := 50
  page : Int := 1

/-- Lines 46-179 of `api_client.py`: build the request that
`get_tournaments` sends. The `filters` dict is populated from the
parameters (each guarded by Python truthiness), but when `owner_ids` is
truthy the function switches to the `TournamentsByOwner` query whose
variables are only `perPage` and `ownerId = owner_ids[0]` — the assembled
`filters` dict is discarded in that branch. -/
def get_tournaments_request (p : GetTournamentsParams) : GatewayRequest :=
  let filter : TournamentFilterObj :=
    { videogameIds :=
        match p.videogame_ids with
        | some (i :: is) => some (i :: is)
        | _ => none
      location :=
        match p.latitude, p.longitude, p.radius with
        | some la, some lo, some r =>
            if la ≠ 0 ∧ lo ≠ 0 ∧ r ≠ 0 then
              some (toString la ++ "," ++ toString lo, toString r ++ p.radius_unit)
            else none
        | _, _, _ => none
      afterDate :=
        match p.after_date with
        | some a => if a ≠ 0 then some a else none
        | none => none
      beforeDate :=
        match p.before_date with
        | some b => if b ≠ 0 then some b else none
        | none => none
      ownerId :=
        match p.owner_ids with
        | some (o :: _) => some o
        | _ => none }
  match p.owner_ids with
  | some (o :: _) => GatewayRequest.byOwner p.per_page o
  | _ => GatewayRequest.standard p.per_page p.page filter

/-- The per-owner gateway call of `fetch_tournaments` (lines 165-174 of
`tournament_fetcher.py`): `owner_ids=[owner_id]`, the fetch's date window,
`per_page=100`, no games and no location. -/
def owner_query_request (owner_id : String) (after_date before_date : Option Int) :
    GatewayRequest :=
  get_tournaments_request
    { owner_ids := some [owner_id]
      after_date := after_date
      before_date := before_date
      per_page := 100 }

/-- The sequence of owner queries issued by the loop over `owner_ids`
(lines 160-178), one per configured owner, in input order. -/
def owner_query_requests (owner_ids : List String) (after_date before_date : Option Int) :
    List GatewayRequest :=
  owner_ids.map (fun o => owner_query_request o after_date before_date)

/-- The `try/except` wrapper of `StartGGClient.get_tournaments`
(lines 181-189): a raised error is recovered as the empty list. -/
def get_tournaments_result (resp : Except String (List Tournament)) : List Tournament :=
  match resp with
  | Except.ok nodes => nodes
  | Except.error _ => []

/-- The deduplication loop of `fetch_tournaments` (lines 180-187):
`seen` is the `seen_ids` set; a record is kept iff its id is truthy and was
not seen before, in which case the id is added to the set. -/
def union_dedup_go (seen : List PyId) : List Tournament → List Tournament
  | [] => []
  | t :: rest =>
    match t.id with
    | some v =>
        if v.truthy ∧ v ∉ seen then t :: union_dedup_go (v :: seen) rest
        else union_dedup_go seen rest
    | none => union_dedup_go seen rest

/-- The `unique_tournaments` list computed by `fetch_tournaments` from the
concatenated `all_tournaments`. -/
def unique_tournaments (all_tournaments : List Tournament) : List Tournament :=
  union_dedup_go [] all_tournaments

/-- The union step of `fetch_tournaments` (lines 134-187): `all_tournaments`
is the primary result extended by each owner result in configuration order,
then deduplicated. -/
def fetch_union (primary : List Tournament) (owner_results : List (List Tournament)) :
    List Tournament :=
  unique_tournaments (primary ++ owner_results.flatten)

/-- Modelled from the spec: plain first-occurrence-wins deduplication by
tournament identifier (`dedup(P ++ O1 ++ ... ++ On)` in the spec's words),
keyed on the raw optional id value. -/
def dedup_by_id_go (seen : List (Option PyId)) : List Tournament → List Tournament
  | [] => []
  | t :: rest =>
    if t.id ∈ seen then dedup_by_id_go seen rest
    else t :: dedup_by_id_go (t.id :: seen) rest

/-- Modelled from the spec: `dedup` with an empty seen set. -/
def dedup_by_id (ts : List Tournament) : List Tournament :=
  dedup_by_id_go [] ts

/-- `TournamentFetcher._apply_filters` (lines 195-212) for a fixed
`min_attendees` threshold: skip a tournament iff its attendee count is
present and below the threshold. -/
def apply_filters_go (min_attendees : Int) : List Tournament → List Tournament
  | [] => []
  | t :: rest =>
    match t.numAttendees with
    | some n =>
        if n < min_attendees then apply_filters_go min_attendees rest
        else t :: apply_filters_go min_attendees rest
    | none => t :: apply_filters_go min_attendees rest

/-- `TournamentFetcher._apply_filters`: the threshold is
`filters.get("min_attendees", 0)`. -/
def apply_filters (tournaments : List Tournament) (filters : FiltersCfg) :
    List Tournament :=
  apply_filters_go (filters.min_attendees.getD 0) tournaments

/-- Following the spec's words for the Result Filter rule: a tournament is
kept iff its attendee count is absent or numerically at least
`min_attendees`. -/
def keeps_tournament (min_attendees : Int) (t : Tournament) : Bool :=
  match t.numAttendees with
  | none => true
  | some n => decide (min_attendees ≤ n)

/-- The data flow of `TournamentFetcher.fetch_tournaments` (lines 134-193)
as a function of the gateway responses: the primary response and the
per-owner responses (one per configured owner, in call order) each pass
through the client's error recovery, are concatenated, deduplicated and
filtered. (The `main_tournaments is None` guard of line 152 is subsumed:
`get_tournaments` never returns `None`.) -/
def fetch_tournaments (primary_resp : Except String (List Tournament))
    (owner_resps : List (Except String (List Tournament)))
    (filters : FiltersCfg) : List Tournament :=
  apply_filters
    (fetch_union (get_tournaments_result primary_resp)
      (owner_resps.map get_tournaments_result))
    filters

/-- `CalendarGenerator._parse_datetime` (lines 144-153): a missing or falsy
(zero) timestamp yields `None`; otherwise the instant is the epoch-seconds
value itself (UTC model of `datetime.fromtimestamp`). -/
def parse_datetime (timestamp : Option Int) : Option Int :=
  match timestamp with
  | none => none
  | some ts => if ts = 0 then none else some ts

/-- The start/end instants set by `CalendarGenerator._create_event`
(lines 57-69): `dtstart` iff the start parses; `dtend` is the parsed end if
present, otherwise start + 4 hours if the start parses, otherwise absent. -/
def create_event_times (t : Tournament) : Option Int × Option Int :=
  let start_time := parse_datetime t.startAt
  let end_time := parse_datetime t.endAt
  (start_time,
   match end_time with
   | some e => some e
   | none =>
      match start_time with
      | some s => some (s + 4 * 3600)
      | none => none)

/-- Python `str` of an optional id, as interpolated into the UID f-string:
`None` prints as the literal string `"None"`. -/
def py_str_opt_id : Option PyId → String
  | none => "None"
  | some (PyId.str s) => s
  | some (PyId.int n) => toString n

/-- The UID added by `CalendarGenerator._create_event` (line 72). -/
def create_event_uid (t : Tournament) : String :=
  "tournament-" ++ py_str_opt_id t.id ++ "@nextbracket"

/-- `event.get("name", "Unknown Event")` for a sub-event, coerced to a
string. -/
def sub_event_name (e : SubEvent) : String :=
  e.name.getD "Unknown Event"

/-- The `description_parts` list built by
`CalendarGenerator._get_event_description` (lines 95-121): the attendee
line is guarded by Python truthiness of `numAttendees` (so a present count
of `0` produces no line), the events line by non-emptiness of `events`, the
registration line by `isRegistrationOpen is False`, and the URL line is
unconditional. -/
def description_parts (t : Tournament) : List String :=
  (match t.numAttendees with
   | some n => if n ≠ 0 then ["Attendees: " ++ toString n] else []
   | none => [])
  ++ (match t.events with
      | [] => []
      | es => ["Events: " ++ String.intercalate ", " (es.map sub_event_name)])
  ++ (if t.isRegistrationOpen = some false then ["Registration Closed"] else [])
  ++ ["View on start.gg: https://start.gg/" ++ t.slug.getD ""]

/-- `CalendarGenerator._get_event_description`: the newline join of the
parts. -/
def get_event_description (t : Tournament) : String :=
  String.intercalate "\n" (description_parts t)

/-- Modelled from the claim's words: an attendee line exactly when the
attendee count is present. -/
def attendees_line_claimed (t : Tournament) : Option String :=
  t.numAttendees.map (fun n => "Attendees: " ++ toString n)

/-- Following the amended wording: an attendee line exactly when the count
is present and nonzero. -/
def attendees_line_amended (t : Tournament) : Option String :=
  match t.numAttendees with
  | some n => if n ≠ 0 then some ("Attendees: " ++ toString n) else none
  | none => none

/-- Following the spec's words: an events line exactly when at least one
sub-event exists, listing the comma-joined sub-event names. -/
def events_line (t : Tournament) : Option String :=
  match t.events with
  | [] => none
  | es => some ("Events: " ++ String.intercalate ", " (es.map sub_event_name))

/-- Following the spec's words: a "Registration Closed" line exactly when
the registration-open flag is explicitly false. -/
def registration_line (t : Tournament) : Option String :=
  if t.isRegistrationOpen = some false then some "Registration Closed" else none

/-- Following the spec's words: the trailing detail-URL line, built from
the slug, always present. -/
def url_line (t : Tournament) : String :=
  "View on start.gg: https://start.gg/" ++ t.slug.getD ""

/-- Modelled from the claim's words: the description with an attendee line
whenever the count is present. -/
def claimed_description (t : Tournament) : String :=
  String.intercalate "\n"
    ((attendees_line_claimed t).toList ++ (events_line t).toList
      ++ (registration_line t).toList ++ [url_line t])

/-- Following the amended wording of the description claim. -/
def amended_description (t : Tournament) : String :=
  String.intercalate "\n"
    ((attendees_line_amended t).toList ++ (events_line t).toList
      ++ (registration_line t).toList ++ [url_line t])

/-- The `location_parts` list built by
`CalendarGenerator._get_event_location` (lines 123-142); every field is
guarded by Python truthiness, so a present-but-empty string contributes
nothing. -/
def location_parts (t : Tournament) : List String :=
  (match t.venueAddress with
   | some s => if s ≠ "" then [s] else []
   | none => [])
  ++ (match (match t.city with
             | some s => if s ≠ "" then [s] else []
             | none => []) ++
            (match t.state with
             | some s => if s ≠ "" then [s] else []
             | none => []) with
      | [] => []
      | cs => [String.intercalate ", " cs])
  ++ (match t.countryCode with
      | some s => if s ≠ "" then [s] else []
      | none => [])

/-- `CalendarGenerator._get_event_location`: the joined parts, or "TBD"
when no part is present. -/
def get_event_location (t : Tournament) : String :=
  match location_parts t with
  | [] => "TBD"
  | parts => String.intercalate ", " parts

/-- Following the amended wording: the singleton of a present, non-empty
string field, else nothing. -/
def present_nonempty (o : Option String) : List String :=
  match o with
  | some s => if s ≠ "" then [s] else []
  | none => []

/-- Following the amended wording of the location claim: join the present,
non-empty fields in order, with the city/state pair comma-joined, falling
back to "TBD". -/
def amended_location (t : Tournament) : String :=
  match present_nonempty t.venueAddress
      ++ (match present_nonempty t.city ++ present_nonempty t.state with
          | [] => []
          | cs => [String.intercalate ", " cs])
      ++ present_nonempty t.countryCode with
  | [] => "TBD"
  | parts => String.intercalate ", " parts

/-- Modelled from the claim's words: the location built from all present
fields (a present empty string counts as present), falling back to "TBD"
only when no field is present. -/
def claimed_location (t : Tournament) : String :=
  match t.venueAddress.toList
      ++ (match t.city.toList ++ t.state.toList with
          | [] => []
          | cs => [String.intercalate ", " cs])
      ++ t.countryCode.toList with
  | [] => "TBD"
  | parts => String.intercalate ", " parts

/-- Setting the registration flag of a record to explicitly closed. -/
def set_registration_closed (t : Tournament) : Tournament :=
  { t with isRegistrationOpen := some false }

theorem mem_map_some (v : PyId) (seen : List PyId) :
    (some v ∈ seen.map some) ↔ v ∈ seen := by simp

theorem union_dedup_go_eq_dedup (l : List Tournament) :
    ∀ seen : List PyId,
      union_dedup_go seen l =
        dedup_by_id_go (seen.map some) (l.filter fun t => pyTruthy t.id) := by
  induction l with
  | nil => intro seen; rfl
  | cons t rest ih =>
    intro seen
    cases h : t.id with
    | none =>
      have hskip : union_dedup_go seen (t :: rest) = union_dedup_go seen rest := by
        simp only [union_dedup_go, h]
      have hdrop : (t :: rest).filter (fun t => pyTruthy t.id) =
          rest.filter (fun t => pyTruthy t.id) :=
        List.filter_cons_of_neg (show ¬(pyTruthy t.id = true) by rw [h]; simp [pyTruthy])
      rw [hskip, hdrop]
      exact ih seen
    | some v =>
      by_cases hv : v.truthy = true
      · have hkeepF : (t :: rest).filter (fun t => pyTruthy t.id) =
            t :: rest.filter (fun t => pyTruthy t.id) :=
          List.filter_cons_of_pos (show pyTruthy t.id = true by rw [h]; exact hv)
        by_cases hm : v ∈ seen
        · have hskip : union_dedup_go seen (t :: rest) = union_dedup_go seen rest := by
            simp only [union_dedup_go, h]
            exact if_neg (fun hc => hc.2 hm)
          have hD : dedup_by_id_go (seen.map some)
              (t :: rest.filter (fun t => pyTruthy t.id)) =
              dedup_by_id_go (seen.map some) (rest.filter (fun t => pyTruthy t.id)) := by
            simp only [dedup_by_id_go, h]
            exact if_pos ((mem_map_some v seen).mpr hm)
          rw [hskip, hkeepF, hD]
          exact ih seen
        · have hkeepL : union_dedup_go seen (t :: rest) =
              t :: union_dedup_go (v :: seen) rest := by
            simp only [union_dedup_go, h]
            exact if_pos ⟨hv, hm⟩
          have hD : dedup_by_id_go (seen.map some)
              (t :: rest.filter (fun t => pyTruthy t.id)) =
              t :: dedup_by_id_go (some v :: seen.map some)
                (rest.filter (fun t => pyTruthy t.id)) := by
            simp only [dedup_by_id_go, h]
            exact if_neg (fun hin => hm ((mem_map_some v seen).mp hin))
          rw [hkeepL, hkeepF, hD, ih (v :: seen)]
          rfl
      · have hskip : union_dedup_go seen (t :: rest) = union_dedup_go seen rest := by
          simp only [union_dedup_go, h]
          exact if_neg (fun hc => hv hc.1)
        have hdrop : (t :: rest).filter (fun t => pyTruthy t.id) =
            rest.filter (fun t => pyTruthy t.id) :=
          List.filter_cons_of_neg (show ¬(pyTruthy t.id = true) by rw [h]; exact hv)
        rw [hskip, hdrop]
        exact ih seen

theorem mem_union_dedup_go (l : List Tournament) :
    ∀ (seen : List PyId) (t' : Tournament), t' ∈ union_dedup_go seen l →
      ∃ v, t'.id = some v ∧ v.truthy = true ∧ v ∉ seen := by
  induction l with
  | nil => intro seen t' h; simp [union_dedup_go] at h
  | cons t rest ih =>
    intro seen t' hmem
    cases h : t.id with
    | none =>
      simp only [union_dedup_go, h] at hmem
      exact ih seen t' hmem
    | some v =>
      simp only [union_dedup_go, h] at hmem
      by_cases hc : v.truthy = true ∧ v ∉ seen
      · rw [if_pos hc] at hmem
        rcases List.mem_cons.mp hmem with rfl | hmem'
        · exact ⟨v, h, hc.1, hc.2⟩
        · rcases ih _ _ hmem' with ⟨w, hw, hwt, hws⟩
          exact ⟨w, hw, hwt, fun hin => hws (List.mem_cons_of_mem _ hin)⟩
      · rw [if_neg hc] at hmem
        exact ih seen t' hmem

theorem pairwise_union_dedup_go (l : List Tournament) :
    ∀ seen : List PyId,
      List.Pairwise (fun a b => a.id ≠ b.id) (union_dedup_go seen l) := by
  induction l with
  | nil => intro seen; rw [union_dedup_go]; exact List.Pairwise.nil
  | cons t rest ih =>
    intro seen
    cases h : t.id with
    | none =>
      simp only [union_dedup_go, h]
      exact ih seen
    | some v =>
      simp only [union_dedup_go, h]
      by_cases hc : v.truthy = true ∧ v ∉ seen
      · rw [if_pos hc]
        refine List.Pairwise.cons ?_ (ih (v :: seen))
        intro b hb heq
        rcases mem_union_dedup_go rest (v :: seen) b hb with ⟨w, hw, _, hws⟩
        rw [h, hw] at heq
        have : v = w := Option.some.inj heq
        exact hws (this ▸ List.mem_cons_self v seen)
      · rw [if_neg hc]
        exact ih seen

theorem apply_filters_go_eq_filter (m : Int) (l : List Tournament) :
    apply_filters_go m l = l.filter (keeps_tournament m) := by
  induction l with
  | nil => rfl
  | cons t rest ih =>
    cases h : t.numAttendees with
    | none =>
      have h1 : apply_filters_go m (t :: rest) = t :: apply_filters_go m rest := by
        simp only [apply_filters_go, h]
      have h2 : (t :: rest).filter (keeps_tournament m) =
          t :: rest.filter (keeps_tournament m) :=
        List.filter_cons_of_pos (show keeps_tournament m t = true by
          simp only [keeps_tournament, h])
      rw [h1, h2, ih]
    | some n =>
      by_cases hn : n < m
      · have h1 : apply_filters_go m (t :: rest) = apply_filters_go m rest := by
          simp only [apply_filters_go, h]
          exact if_pos hn
        have h2 : (t :: rest).filter (keeps_tournament m) =
            rest.filter (keeps_tournament m) :=
          List.filter_cons_of_neg (show ¬(keeps_tournament m t = true) by
            simp only [keeps_tournament, h, decide_eq_true_eq]
            omega)
        rw [h1, h2, ih]
      · have h1 : apply_filters_go m (t :: rest) = t :: apply_filters_go m rest := by
          simp only [apply_filters_go, h]
          exact if_neg hn
        have h2 : (t :: rest).filter (keeps_tournament m) =
            t :: rest.filter (keeps_tournament m) :=
          List.filter_cons_of_pos (show keeps_tournament m t = true by
            simp only [keeps_tournament, h, decide_eq_true_eq]
            omega)
        rw [h1, h2, ih]

/-- C1 (amended): the union step returns the first-occurrence-wins
deduplication by tournament identifier of the concatenation
P ++ O1 ++ ... ++ On restricted to records with a truthy identifier, and
no two returned records share an identifier. -/
theorem fetch_union_is_truthy_dedup (P : List Tournament) (Os : List (List Tournament)) :
    fetch_union P Os =
      dedup_by_id (((P ++ Os.flatten)).filter fun t => pyTruthy t.id) ∧
    List.Pairwise (fun a b => a.id ≠ b.id) (fetch_union P Os) := by
  constructor
  · have h := union_dedup_go_eq_dedup (P ++ Os.flatten) []
    simpa [fetch_union, unique_tournaments, dedup_by_id] using h
  · exact pairwise_union_dedup_go _ []

/-- C1 counterexample: a record with an absent identifier is dropped by the
code, while plain first-occurrence-wins deduplication by identifier keeps
it, so the fetch result is not `dedup(P ++ O1 ++ ... ++ On)` as claimed. -/
theorem fetch_union_dedup_counterexample :
    fetch_union [{ id := none }] [] ≠
      dedup_by_id ([{ id := none }] ++ ([] : List (List Tournament)).flatten) := by
  decide

/-- C10: every record surviving the dedup step has a truthy identifier, and
records with an absent or falsy identifier are excluded entirely (the
result is unchanged when they are removed beforehand). -/
theorem unique_tournaments_truthy_ids (l : List Tournament) :
    ((unique_tournaments l).all fun t => pyTruthy t.id) = true ∧
    unique_tournaments l = unique_tournaments (l.filter fun t => pyTruthy t.id) := by
  constructor
  · rw [List.all_eq_true]
    intro t ht
    rcases mem_union_dedup_go l [] t ht with ⟨v, hv, hvt, _⟩
    rw [hv] at *
    simpa [pyTruthy] using hvt
  · have h1 := union_dedup_go_eq_dedup l []
    have h2 := union_dedup_go_eq_dedup (l.filter fun t => pyTruthy t.id) []
    rw [unique_tournaments, h1, unique_tournaments, h2]
    congr 1
    rw [List.filter_filter]
    apply List.filter_congr
    intro t _
    simp [Bool.and_self]

/-- C2: the Result Filter is the order-preserving subsequence of the
tournaments whose attendee count is absent or at least the configured
threshold, and setting every record's registration flag to closed does not
change which records are kept. -/
theorem apply_filters_spec (ts : List Tournament) (fs : FiltersCfg) :
    apply_filters ts fs = ts.filter (keeps_tournament (fs.min_attendees.getD 0)) ∧
    (apply_filters ts fs).Sublist ts ∧
    apply_filters (ts.map set_registration_closed) fs =
      (apply_filters ts fs).map set_registration_closed := by
  refine ⟨apply_filters_go_eq_filter _ ts, ?_, ?_⟩
  · rw [apply_filters, apply_filters_go_eq_filter]
    exact List.filter_sublist ts
  · rw [apply_filters, apply_filters_go_eq_filter, apply_filters,
      apply_filters_go_eq_filter, List.filter_map]
    rfl

/-- C8: a failing gateway query degrades to an empty result for that query
only — replacing a failed primary response, or the failed response of any
single owner, by an empty successful one leaves the fetch result
unchanged. -/
theorem fetch_failure_isolation (p : Except String (List Tournament))
    (pre post : List (Except String (List Tournament))) (e : String) (fs : FiltersCfg) :
    fetch_tournaments (Except.error e) (pre ++ post) fs =
      fetch_tournaments (Except.ok []) (pre ++ post) fs ∧
    fetch_tournaments p (pre ++ Except.error e :: post) fs =
      fetch_tournaments p (pre ++ Except.ok [] :: post) fs := by
  constructor
  · rfl
  · simp [fetch_tournaments, get_tournaments_result]

/-- C3: every per-owner gateway query issued by the fetch loop is the
owner-only request carrying nothing but `perPage = 100` and the owner id —
the configured date window is dropped — whereas the primary
`TournamentPageFilter` request does carry the date bounds. -/
theorem owner_queries_drop_date_window (owner_ids : List String) (a b : Option Int) :
    owner_query_requests owner_ids a b =
      owner_ids.map (fun o => GatewayRequest.byOwner 100 o) ∧
    get_tournaments_request
        { videogame_ids := some [1], after_date := some 1000, before_date := some 2000,
          per_page := 100 } =
      GatewayRequest.standard 100 1
        { videogameIds := some [1], location := none, afterDate := some 1000,
          beforeDate := some 2000, ownerId := none } :=
  ⟨rfl, rfl⟩

/-- C4 (amended): the date window supports only the symmetric year form;
the day-based fields are ignored entirely. -/
theorem calculate_date_range_spec (cfg : FetcherConfig) (T y : Int) :
    (cfg.date_range_years = some y → 0 < y →
      calculate_date_range cfg T =
        (some (T - y * 365 * 86400), some (T + y * 365 * 86400))) ∧
    (cfg.date_range_years = some y → y ≤ 0 →
      calculate_date_range cfg T = (none, none)) ∧
    (cfg.date_range_years = none → calculate_date_range cfg T = (none, none)) ∧
    calculate_date_range cfg T =
      calculate_date_range
        { date_range_years := cfg.date_range_years,
          filters :=
            { cfg.filters with
              date_range_days := none
              include_past_days := none } } T := by
  refine ⟨?_, ?_, ?_, ?_⟩
  · intro h hy
    simp only [calculate_date_range, h]
    exact if_pos hy
  · intro h hy
    simp only [calculate_date_range, h]
    exact if_neg (by omega)
  · intro h
    simp only [calculate_date_range, h]
  · rfl

theorem calculate_date_range_spec_witness :
    calculate_date_range { date_range_years := some 1 } 1700000000 =
      (some (1700000000 - 1 * 365 * 86400), some (1700000000 + 1 * 365 * 86400)) :=
  (calculate_date_range_spec { date_range_years := some 1 } 1700000000 1).1 rfl
    (by decide)

/-- C4 counterexample: a configuration using only the day-based window
fields yields no date bounds in the code, while the claimed builder
produces the asymmetric window. -/
theorem calculate_date_range_counterexample :
    calculate_date_range
        { filters := { date_range_days := some 90, include_past_days := some 7 } }
        1700000000 = (none, none) ∧
    claimed_date_range
        { filters := { date_range_days := some 90, include_past_days := some 7 } }
        1700000000 = (some 1699395200, some 1707776000) ∧
    calculate_date_range
        { filters := { date_range_days := some 90, include_past_days := some 7 } }
        1700000000 ≠
      claimed_date_range
        { filters := { date_range_days := some 90, include_past_days := some 7 } }
        1700000000 := by
  refine ⟨by decide, by decide, by decide⟩

theorem description_parts_eq (t : Tournament) :
    description_parts t =
      (attendees_line_amended t).toList ++ (events_line t).toList
        ++ (registration_line t).toList ++ [url_line t] := by
  unfold description_parts attendees_line_amended events_line registration_line url_line
  cases hn : t.numAttendees with
  | none =>
    by_cases hr : t.isRegistrationOpen = some false <;> cases t.events <;> simp [hr]
  | some n =>
    by_cases h0 : n ≠ 0 <;> by_cases hr : t.isRegistrationOpen = some false <;>
      cases t.events <;> simp [h0, hr]

/-- C5 (amended): the mapped description is the newline-join, in order, of
an attendee line (present exactly when the count is present and nonzero),
an events line (exactly when a sub-event exists), a "Registration Closed"
line (exactly when the flag is explicitly false) and the detail-URL line. -/
theorem get_event_description_spec (t : Tournament) :
    get_event_description t = amended_description t := by
  rw [get_event_description, description_parts_eq]
  rfl

/-- C5 counterexample: a tournament with a present attendee count of zero
gets no "Attendees: 0" line, contradicting "present exactly when the
attendee count is present". -/
theorem get_event_description_counterexample :
    get_event_description { numAttendees := some 0 } ≠
      claimed_description { numAttendees := some 0 } := by
  decide

/-- C6 (amended): with a parseable (nonzero) start and no parseable end,
the end instant is start + 4 hours; with no parseable start, the start is
absent and the end is whatever the end timestamp parses to. -/
theorem create_event_times_spec (t : Tournament) (s : Int) :
    (t.startAt = some s → s ≠ 0 → parse_datetime t.endAt = none →
      create_event_times t = (some s, some (s + 4 * 3600))) ∧
    (parse_datetime t.startAt = none →
      create_event_times t = (none, parse_datetime t.endAt)) := by
  constructor
  · intro hs hs0 he
    have h1 : parse_datetime t.startAt = some s := by
      rw [hs]
      simp [parse_datetime, hs0]
    simp only [create_event_times, h1, he]
  · intro h1
    simp only [create_event_times, h1]
    cases he : parse_datetime t.endAt <;> simp

theorem create_event_times_spec_witness :
    create_event_times { startAt := some 1000000 } = (some 1000000, some (1000000 + 4 * 3600)) ∧
    create_event_times { } = (none, parse_datetime ({ } : Tournament).endAt) :=
  ⟨(create_event_times_spec { startAt := some 1000000 } 1000000).1 rfl (by decide) rfl,
   (create_event_times_spec { } 0).2 rfl⟩

/-- C6 counterexample: with the start timestamp absent but an end timestamp
present the code still sets an end instant (the claim says both are left
absent); and with a present start timestamp of 0 and no end, the code sets
no end at all (the claim says end = start + 4 hours). -/
theorem create_event_times_counterexample :
    create_event_times { endAt := some 1000000 } = (none, some 1000000) ∧
    create_event_times { startAt := some 0 } = (none, none) := by
  decide

/-- C7: the UID is a deterministic function of the tournament identifier
alone — records with equal identifiers map to byte-identical UID strings. -/
theorem create_event_uid_deterministic (t1 t2 : Tournament) (h : t1.id = t2.id) :
    create_event_uid t1 = create_event_uid t2 := by
  rw [create_event_uid, create_event_uid, h]

theorem create_event_uid_deterministic_witness :
    create_event_uid { id := some (PyId.int 42) } =
      create_event_uid { id := some (PyId.int 42), name := some "Other" } :=
  create_event_uid_deterministic _ _ rfl

/-- C9 (amended): the mapped location is the ", "-join, in order, of the
present non-empty fields among venue address, the comma-joined present
non-empty city/state parts, and country code, with "TBD" when no such field
exists. -/
theorem get_event_location_spec (t : Tournament) :
    get_event_location t = amended_location t :=
  rfl

/-- C9 counterexample: a present-but-empty venue address is treated as
absent by the code (the result is "TBD"), while the claim's reading of
"present" would join it into the empty string. -/
theorem get_event_location_counterexample :
    get_event_location { venueAddress := some "" } ≠
      claimed_location { venueAddress := some "" } := by
  decide
